import Mathlib

/-!
Shallow embedding of the media-dashboard aggregator
(`dashboard/app/main.py` and `dashboard/app/settings.py`).

Conventions used throughout:
* Calendar dates are embedded as integers (a day number); comparing two
  `dt.date` values in Python corresponds to comparing the integers, and
  `(a - b).days` corresponds to integer subtraction.  A field that
  `_parse_date` may fail to produce is an `Option Int`.
* Python strings are Lean `String`s; Python compares strings by code
  points, which we embed with an explicit lexicographic comparison on
  the underlying character lists (Lean's builtin `String` order does not
  reduce in the kernel).
* Python's `sorted` is a stable sort; for a total preorder on keys any
  two stable sorts agree elementwise, so it is embedded as
  `List.insertionSort` (Mathlib's stable insertion sort).
* `x or y` on falsy-capable Python values ( `None`, `""`, `0` ) is
  embedded by the explicit `pyOrStr` / `pyOrInt` helpers.
* A Python function that can raise an exception which the caller does
  not catch is embedded as `Except`; an uncaught transport error from
  `httpx` is `Except.error ()`.
* Wall-clock instants and byte counters in the host-metrics reader are
  embedded as rationals (`ℚ`), making the float arithmetic exact.
-/

namespace MediaDash

/-- Strict lexicographic comparison of character lists by code point,
matching Python's `<` on strings. -/
def charsLt : List Char → List Char → Bool
  | [], [] => false
  | [], _ :: _ => true
  | _ :: _, [] => false
  | a :: as, b :: bs => if a < b then true else if b < a then false else charsLt as bs

/-- Non-strict lexicographic comparison of character lists by code point,
matching Python's `<=` on strings. -/
def charsLe : List Char → List Char → Bool
  | [], _ => true
  | _ :: _, [] => false
  | a :: as, b :: bs => if a < b then true else if b < a then false else charsLe as bs

/-- Does the second list start with the first one? -/
def leadsWith : List Char → List Char → Bool
  | [], _ => true
  | _ :: _, [] => false
  | p :: ps, h :: hs => p == h && leadsWith ps hs

/-- Python's substring containment `pat in hay`. -/
def hasSub (pat : List Char) : List Char → Bool
  | [] => leadsWith pat []
  | h :: t => leadsWith pat (h :: t) || hasSub pat t

/-- Substring containment on strings (`pat in hay` in Python). -/
def hasSubstr (pat hay : String) : Bool := hasSub pat.data hay.data

/-- Python's `str.lower()` (ASCII case folding suffices for the values
the dashboard compares). -/
def lowerStr (s : String) : String := ⟨s.data.map Char.toLower⟩

/-- Whitespace trimming on a character list, from both ends. -/
def trimChars (cs : List Char) : List Char :=
  ((cs.dropWhile Char.isWhitespace).reverse.dropWhile Char.isWhitespace).reverse

/-- Python's `str.strip()`. -/
def trimStr (s : String) : String := ⟨trimChars s.data⟩

/-- Python's `a or b` where `a` is an optional string and the empty
string is falsy. -/
def pyOrStr (a b : Option String) : Option String :=
  match a with
  | some s => if s = "" then b else some s
  | none => b

/-- Python's `a or b` where `a` is an optional integer and `0` is falsy. -/
def pyOrInt (a b : Option Int) : Option Int :=
  match a with
  | some n => if n = 0 then b else some n
  | none => b

/-- Value of a list of decimal digit characters. -/
def digitsVal (cs : List Char) : Nat :=
  cs.foldl (fun a c => a * 10 + (c.toNat - 48)) 0

/-- Python's `int(s)` on a string: optional surrounding whitespace, an
optional sign, then at least one decimal digit; `none` when `int`
raises `ValueError`. -/
def pyInt (s : String) : Option Int :=
  match trimChars s.data with
  | '-' :: rest =>
      if rest.all Char.isDigit && !rest.isEmpty then some (-(digitsVal rest : Int)) else none
  | '+' :: rest =>
      if rest.all Char.isDigit && !rest.isEmpty then some (digitsVal rest : Int) else none
  | t => if t.all Char.isDigit && !t.isEmpty then some (digitsVal t : Int) else none

/-! ## Status aggregator (`/api/status`)

`ServiceStatus` is the dataclass from `settings.py`; the four probe
coroutines and the `status` endpoint are from `main.py`.  A probe's
upstream interaction is summarised by an outcome value: either the
transport layer failed (an `httpx` exception, uncaught unless noted) or
a response arrived with a status code and a body. -/

/-- Dataclass `ServiceStatus(name, ok, detail=None)` from `settings.py`. -/
structure ServiceStatus where
  name : String
  ok : Bool
  detail : Option String := none
deriving DecidableEq

/-- Overall health from the `status` endpoint:
`all(x.ok for x in items if x.detail != "not configured")`. -/
def statusOverallOk (items : List ServiceStatus) : Bool :=
  (items.filter (fun x => x.detail ≠ some "not configured")).all (fun x => x.ok)

/-- Outcome of one `httpx` GET whose body is read with `r.json()`:
`transport` is a transport-level exception; otherwise a status code, an
optional `content-type` header, and the parsed body (`none` when the
body is not valid JSON, else the optional `version` field). -/
inductive ProbeHttp where
  | transport
  | resp (status : Nat) (contentType : Option String) (json : Option (Option String))
deriving DecidableEq

/-- Outcome of one `httpx` call whose body is read as text (qBittorrent). -/
inductive QbCall where
  | transport
  | resp (status : Nat) (text : String)
deriving DecidableEq

/-- Probe `_status_sonarr`: `cfg` is whether both URL and API key are
set.  A transport error or a JSON parse failure propagates
(`Except.error`). -/
def status_sonarr (cfg : Bool) (p : ProbeHttp) : Except Unit ServiceStatus :=
  if !cfg then .ok ⟨"Sonarr", false, some "not configured"⟩
  else
    match p with
    | .transport => .error ()
    | .resp st _ json =>
      if st ≥ 400 then .ok ⟨"Sonarr", false, some ("http " ++ toString st)⟩
      else
        match json with
        | none => .error ()
        | some ver =>
          .ok ⟨"Sonarr", true, some (match ver with | some v => "v" ++ v | none => "ok")⟩

/-- Probe `_status_radarr` (same shape as `_status_sonarr`). -/
def status_radarr (cfg : Bool) (p : ProbeHttp) : Except Unit ServiceStatus :=
  if !cfg then .ok ⟨"Radarr", false, some "not configured"⟩
  else
    match p with
    | .transport => .error ()
    | .resp st _ json =>
      if st ≥ 400 then .ok ⟨"Radarr", false, some ("http " ++ toString st)⟩
      else
        match json with
        | none => .error ()
        | some ver =>
          .ok ⟨"Radarr", true, some (match ver with | some v => "v" ++ v | none => "ok")⟩

/-- Probe `_status_jellyfin`: unlike the *arr probes, a JSON parse
failure is caught and reported as a detail; a transport error still
propagates. -/
def status_jellyfin (cfg : Bool) (p : ProbeHttp) : Except Unit ServiceStatus :=
  if !cfg then .ok ⟨"Jellyfin", false, some "not configured"⟩
  else
    match p with
    | .transport => .error ()
    | .resp st ct json =>
      if st ≥ 400 then .ok ⟨"Jellyfin", false, some ("http " ++ toString st)⟩
      else
        match json with
        | none =>
          let c := trimStr (ct.getD "")
          .ok ⟨"Jellyfin", false,
               some ("invalid json (" ++ (if c = "" then "unknown" else c) ++ ")")⟩
        | some ver =>
          .ok ⟨"Jellyfin", true, some (match ver with | some v => "v" ++ v | none => "ok")⟩

/-- Did `_qb_login` succeed?  qBittorrent login succeeds iff the status
code is below 400 and the body contains the substring `"Ok"`; otherwise
`_qb_login` raises `HTTPException`. -/
def qb_login_ok (status : Nat) (text : String) : Bool :=
  !decide (status ≥ 400) && hasSubstr "Ok" text

/-- Probe `_status_qb`: the `HTTPException` from a rejected login is
caught (`ok=false` with the exception's detail); transport errors in
either call propagate. -/
def status_qb (cfg : Bool) (login ver : QbCall) : Except Unit ServiceStatus :=
  if !cfg then .ok ⟨"qBittorrent", false, some "not configured"⟩
  else
    match login with
    | .transport => .error ()
    | .resp st text =>
      if !qb_login_ok st text then .ok ⟨"qBittorrent", false, some "qBittorrent login failed"⟩
      else
        match ver with
        | .transport => .error ()
        | .resp st2 text2 =>
          if st2 ≥ 400 then .ok ⟨"qBittorrent", false, some ("http " ++ toString st2)⟩
          else .ok ⟨"qBittorrent", true,
                    some (if text2 ≠ "" then "v" ++ trimStr text2 else "ok")⟩

/-- Body of the `/api/status` response. -/
structure StatusResp where
  ok : Bool
  items : List ServiceStatus
deriving DecidableEq

/-- Endpoint `status`: awaits the four probes (Sonarr, Radarr,
qBittorrent, Jellyfin, in that order); an exception escaping any probe
aborts the whole response. -/
def status (so ra qb je : Except Unit ServiceStatus) : Except Unit StatusResp := do
  let s ← so
  let r ← ra
  let q ← qb
  let j ← je
  let items := [s, r, q, j]
  pure ⟨statusOverallOk items, items⟩

/-! ## Host metrics reader (`/api/system`, network counter fallback)

The module-level dict `_NET_LAST` holds the previous cumulative rx/tx
byte counters and the wall-clock time of that observation. -/

/-- Contents of `_NET_LAST` (`rx`, `tx`, `t` keys; all absent at
process start). -/
structure NetState where
  rx : Option ℚ
  tx : Option ℚ
  t : Option ℚ
deriving DecidableEq

/-- The empty `_NET_LAST` dict at process start. -/
def netInit : NetState := ⟨none, none, none⟩

/-- Result of one poll of the counter-delta branch of `system`. -/
structure NetPoll where
  rxBps : Option ℚ
  txBps : Option ℚ
  state : NetState
deriving DecidableEq

/-- Counter-delta branch of the `system` endpoint (qBittorrent source
unavailable, `/proc/net/dev` readable): computes the rates from the
previous sample when one exists, then stores the current sample. -/
def systemNet (st : NetState) (rx tx now : ℚ) : NetPoll :=
  match st.rx, st.tx, st.t with
  | some lastRx, some lastTx, some lastT =>
    let dts := max (1 / 1000) (now - lastT)
    ⟨some (max 0 ((rx - lastRx) / dts)),
     some (max 0 ((tx - lastTx) / dts)),
     ⟨some rx, some tx, some now⟩⟩
  | _, _, _ => ⟨none, none, ⟨some rx, some tx, some now⟩⟩

/-! ## Movie tracker — `radarr_soon` (`/api/radarr/soon`) -/

/-- Fields of one Radarr movie object used by `radarr_soon`.  The four
release-date fields are the values of `_parse_date` on the raw strings
(`none` for absent / empty / sentinel / invalid dates). -/
structure Movie where
  id : Option Int
  title : Option String
  year : Option Int
  monitored : Bool
  hasFile : Bool
  status : Option String
  digitalRelease : Option Int
  physicalRelease : Option Int
  inCinemas : Option Int
  premiereDate : Option Int
deriving DecidableEq

/-- One Radarr queue record, as consulted by `radarr_soon` (only the
`movieId` field is read; non-integer values are skipped). -/
structure RadarrQueueRec where
  movieId : Option Int
deriving DecidableEq

/-- The set `queued_ids` collected from the queue records. -/
def queuedIdsOf (records : List RadarrQueueRec) : List Int :=
  records.filterMap (fun r => r.movieId)

/-- `pick_release_date`: digital, else physical, else in-cinemas, else
premiere. -/
def pick_release_date (m : Movie) : Option Int :=
  ((m.digitalRelease.or m.physicalRelease).or m.inCinemas).or m.premiereDate

/-- The `reason` categories of a "soon" movie. -/
inductive SoonReason where
  | Queued
  | Missing
  | Unreleased
deriving DecidableEq

/-- Categorisation step of `radarr_soon`: in queue ⇒ `Queued`; else a
known release date `≤ today` ⇒ `Missing`; else `Unreleased`. -/
def soonClassify (isQueued : Bool) (releaseDate : Option Int) (today : Int) : SoonReason :=
  if isQueued then .Queued
  else
    match releaseDate with
    | some d => if d ≤ today then .Missing else .Unreleased
    | none => .Unreleased

/-- Heuristic `🎥`: released in cinemas with no digital and no physical
date yet. -/
def soonCinemaOnly (m : Movie) (today : Int) : Bool :=
  (match m.inCinemas with | some c => decide (c ≤ today) | none => false)
    && m.digitalRelease.isNone && m.physicalRelease.isNone

/-- Heuristic `📀`: physical release date in the future. -/
def soonPhysicalFuture (m : Movie) (today : Int) : Bool :=
  match m.physicalRelease with | some p => decide (today < p) | none => false

/-- Heuristic `🌍`: effective release at least 90 days old. -/
def soonOld (rd : Option Int) (today : Int) : Bool :=
  match rd with | some d => decide (90 ≤ today - d) | none => false

/-- The `missing_icons` annotation list built for `Missing` items. -/
def soonIcons (m : Movie) (rd : Option Int) (today : Int) : List String :=
  (if soonCinemaOnly m today then ["🎥"] else [])
    ++ (if soonPhysicalFuture m today then ["📀"] else [])
    ++ ["🔍"]
    ++ (if soonOld rd today then ["🌍"] else [])

/-- One normalized item of the `radarr_soon` output. -/
structure SoonItem where
  id : Int
  title : Option String
  year : Option Int
  releaseDate : Option Int
  reason : SoonReason
  status : Option String
  hasFile : Bool
  monitored : Bool
  missingIcons : List String
deriving DecidableEq

/-- Is a known release date strictly beyond the horizon
(`release_date and release_date > max_future`)? -/
def soonBeyond (rd : Option Int) (maxFuture : Int) : Bool :=
  match rd with | some d => decide (maxFuture < d) | none => false

/-- The horizon `max_future = today + timedelta(days=max(1, min(days_future, 3650)))`. -/
def soonMaxFuture (today daysFuture : Int) : Int :=
  today + max 1 (min daysFuture 3650)

/-- Loop body of `radarr_soon` for one movie: `none` when the movie is
skipped (non-integer id, unmonitored, has a file and is not queued, or
is `Unreleased` beyond the horizon), otherwise the normalized item. -/
def soonItemOf (queuedIds : List Int) (today maxFuture : Int) (m : Movie) (mid : Int) :
    Option SoonItem :=
  if !m.monitored then none
  else if m.hasFile && !(queuedIds.contains mid) then none
  else if soonClassify (queuedIds.contains mid) (pick_release_date m) today
            = SoonReason.Unreleased
          ∧ soonBeyond (pick_release_date m) maxFuture = true then none
  else
    some { id := mid, title := m.title, year := m.year,
           releaseDate := pick_release_date m,
           reason := soonClassify (queuedIds.contains mid) (pick_release_date m) today,
           status := m.status, hasFile := m.hasFile, monitored := m.monitored,
           missingIcons :=
             if soonClassify (queuedIds.contains mid) (pick_release_date m) today
                 = SoonReason.Missing
             then soonIcons m (pick_release_date m) today else [] }

/-- As above, dispatching on the presence of an integer `id`. -/
def soonProcess (queuedIds : List Int) (today maxFuture : Int) (m : Movie) : Option SoonItem :=
  match m.id with
  | none => none
  | some mid => soonItemOf queuedIds today maxFuture m mid

/-- Sort key of `radarr_soon`: `(unknown, releaseDate, title)` with
unknown dates last; the code compares the ISO date string, which orders
exactly as the day number. -/
def soonKey (it : SoonItem) : Nat × Int × List Char :=
  ((if it.releaseDate.isSome then 0 else 1 : Nat),
   it.releaseDate.getD 0,
   (it.title.getD "").data)

/-- Lexicographic `≤` on the `(unknown, date, title)` sort keys. -/
def lexKeyLe : Nat × Int × List Char → Nat × Int × List Char → Bool
  | (u1, d1, t1), (u2, d2, t2) =>
    if u1 < u2 then true
    else if u2 < u1 then false
    else if d1 < d2 then true
    else if d2 < d1 then false
    else charsLe t1 t2

/-- Comparison relation used to sort `radarr_soon` items. -/
def soonRel (a b : SoonItem) : Prop := lexKeyLe (soonKey a) (soonKey b) = true

instance : DecidableRel soonRel := fun _ _ => instDecidableEqBool _ _

/-- Pre-truncation `out_sorted` list of `radarr_soon`. -/
def soonAll (movies : List Movie) (queuedIds : List Int) (today daysFuture : Int) :
    List SoonItem :=
  List.insertionSort soonRel
    (movies.filterMap (soonProcess queuedIds today (soonMaxFuture today daysFuture)))

/-- Body of the `/api/radarr/soon` response. -/
structure SoonResp where
  rangeDaysFuture : Int
  count : Nat
  items : List SoonItem
deriving DecidableEq

/-- Endpoint `radarr_soon` after the two upstream calls: `movies` is the
parsed movie list, `queuedIds` the queue cross-reference, `today` the
current UTC date. -/
def radarr_soon (movies : List Movie) (queuedIds : List Int) (today daysFuture limit : Int) :
    SoonResp :=
  let items := (soonAll movies queuedIds today daysFuture).take (max 0 (min limit 50)).toNat
  ⟨daysFuture, items.length, items⟩

/-- Ordering the specification ascribes to the `radarr_soon` output:
unknown release dates order after known ones, known dates ascend, and
equal dates are broken by ascending title. -/
def soonClaimLE (a b : SoonItem) : Prop :=
  match a.releaseDate, b.releaseDate with
  | none, some _ => False
  | some da, some db =>
      da < db ∨ (da = db ∧ charsLe (a.title.getD "").data (b.title.getD "").data = true)
  | none, none => charsLe (a.title.getD "").data (b.title.getD "").data = true
  | some _, none => True

/-! ## TV tracker — `sonarr_upcoming` (`/api/sonarr/upcoming`) -/

/-- The `series` sub-object of a calendar entry (only `title` is read). -/
structure SeriesObj where
  title : Option String
deriving DecidableEq

/-- Fields of one Sonarr calendar entry used by `sonarr_upcoming`. -/
structure Episode where
  series : Option SeriesObj
  seriesTitle : Option String
  title : Option String
  seasonNumber : Option Int
  episodeNumber : Option Int
  airDateUtc : Option String
  airDate : Option String
  hasFile : Bool
deriving DecidableEq

/-- Sort key of `sonarr_upcoming`: `str(x.get("airDateUtc") or x.get("airDate") or "")`. -/
def epKey (x : Episode) : String :=
  (pyOrStr x.airDateUtc x.airDate).getD ""

/-- Comparison relation used to sort the calendar entries. -/
def epRel (a b : Episode) : Prop := charsLe (epKey a).data (epKey b).data = true

instance : DecidableRel epRel := fun _ _ => instDecidableEqBool _ _

/-- One normalized item of the `sonarr_upcoming` output. -/
structure EpisodeOut where
  seriesTitle : Option String
  episodeTitle : Option String
  seasonNumber : Option Int
  episodeNumber : Option Int
  airDateUtc : Option String
  hasFile : Bool
deriving DecidableEq

/-- Projection of one calendar entry. -/
def epProj (x : Episode) : EpisodeOut :=
  { seriesTitle := pyOrStr (match x.series with | some s => s.title | none => none) x.seriesTitle,
    episodeTitle := x.title,
    seasonNumber := x.seasonNumber,
    episodeNumber := x.episodeNumber,
    airDateUtc := pyOrStr x.airDateUtc x.airDate,
    hasFile := x.hasFile }

/-- End of the calendar window requested upstream:
`start + timedelta(days=max(1, min(days, 30)))`. -/
def sonarr_window_end (start days : Int) : Int :=
  start + max 1 (min days 30)

/-- Body of the `/api/sonarr/upcoming` response (`count` is computed as
`min(limit, len(out))`, before truncation, and may be negative). -/
structure UpcomingResp where
  rangeDays : Int
  count : Int
  items : List EpisodeOut
deriving DecidableEq

/-- Endpoint `sonarr_upcoming` after the upstream call: sorts the
calendar entries by air date and truncates to `max(0, min(limit, 50))`. -/
def sonarr_upcoming (days limit : Int) (entries : List Episode) : UpcomingResp :=
  let out := (List.insertionSort epRel entries).map epProj
  ⟨days, min limit (out.length : Int), out.take (max 0 (min limit 50)).toNat⟩

/-! ## Torrent client — `qbittorrent_torrents` (`/api/qbittorrent/torrents`) -/

/-- Fields of one qBittorrent torrent object projected into the output
(exactly the keys the endpoint copies; speeds are byte rates). -/
structure Torrent where
  hash : Option String
  name : Option String
  state : Option String
  progress : Option ℚ
  dlspeed : Option Nat
  upspeed : Option Nat
  eta : Option Int
  size : Option Int
  amount_left : Option Int
  num_seeds : Option Int
  num_leechs : Option Int
  ratio : Option ℚ
  category : Option String
  tags : Option String
  added_on : Option Int
deriving DecidableEq

/-- The fixed set `active_states`. -/
def activeStates : List String :=
  ["downloading", "metadl", "stalleddl", "queueddl", "checkingdl", "allocating", "forceddl"]

/-- Client-side `active` post-filter: nonzero down-speed, or nonzero
up-speed, or lower-cased state in `active_states`. -/
def activeKeep (t : Torrent) : Bool :=
  decide (t.dlspeed.getD 0 > 0) || decide (t.upspeed.getD 0 > 0)
    || activeStates.contains (lowerStr (t.state.getD ""))

/-- Filter value passed upstream: `"all" if filter == "active" else filter`. -/
def qbUpstreamFilter (f : String) : String :=
  if f = "active" then "all" else f

/-- Body of the `/api/qbittorrent/torrents` response. -/
structure TorrentsResp where
  filter : String
  count : Nat
  items : List Torrent
deriving DecidableEq

/-- Endpoint `qbittorrent_torrents` after login and the upstream call:
applies the client-side `active` post-filter, then the client-side
limit slice (`limit` unset or `≤ 0` means no limit). -/
def qbittorrent_torrents (f : String) (limit : Option Int) (torrents : List Torrent) :
    TorrentsResp :=
  let ts := if f = "active" then torrents.filter activeKeep else torrents
  let view :=
    match limit with
    | some l => if l > 0 then ts.take l.toNat else ts
    | none => ts
  ⟨f, view.length, view⟩

/-! ## Request broker — `jellyseerr_search` (`/api/jellyseerr/search`) -/

/-- A JSON value that may be an integer or a string (the shape of the
`tmdbId` / `id` fields). -/
inductive JNum where
  | int (n : Int)
  | str (s : String)
deriving DecidableEq

/-- One entry of `mediaInfo.seasons` (`seasonNumber` is kept only when
it is an integer). -/
structure JSeason where
  seasonNumber : Option Int
  status : Option Int
deriving DecidableEq

/-- The `mediaInfo` sub-object of a search result. -/
structure JMediaInfo where
  status : Option Int
  seasons : Option (List JSeason)
deriving DecidableEq

/-- Fields of one upstream search result used by `jellyseerr_search`. -/
structure JResult where
  mediaType : Option String
  tmdbId : Option JNum
  id : Option JNum
  name : Option String
  title : Option String
  firstAirDate : Option String
  releaseDate : Option String
  mediaInfo : Option JMediaInfo
deriving DecidableEq

/-- ID coercion: `tmdbId`, falling back to `id`; an integer is kept, a
string is stripped and accepted only when `str.isdigit()` holds. -/
def coerceTmdbId (r : JResult) : Option Int :=
  match r.tmdbId.or r.id with
  | none => none
  | some (.int n) => some n
  | some (.str s) =>
    let t := trimChars s.data
    if t.all Char.isDigit && !t.isEmpty then some (digitsVal t : Int) else none

/-- Year derivation: `int(str(date_str)[:4])` when `date_str` is truthy,
`none` when absent or unparsable. -/
def deriveYear (dateStr : Option String) : Option Int :=
  match dateStr with
  | none => none
  | some s => if s = "" then none else pyInt ⟨s.data.take 4⟩

/-- One normalized item of the `jellyseerr_search` output. -/
structure SearchItem where
  mediaType : String
  mediaId : Int
  title : String
  year : Option Int
  status : Option Int
  seasonsStatus : Option (List (Int × Option Int))
deriving DecidableEq

/-- Loop body of `jellyseerr_search` for one upstream result: `none`
when the result is dropped (media type mismatch under case-insensitive
comparison, or no valid ID), otherwise the normalized item. -/
def jsItem (wanted : String) (r : JResult) : Option SearchItem :=
  let mt := lowerStr (trimStr (r.mediaType.getD ""))
  if mt ≠ lowerStr wanted then none
  else
    match coerceTmdbId r with
    | none => none
    | some tid =>
      let t := trimStr ((pyOrStr r.name r.title).getD "")
      let title := if t = "" then "—" else t
      let dateStr := if mt = "tv" then r.firstAirDate else r.releaseDate
      let year := deriveYear dateStr
      let status := match r.mediaInfo with | some mi => mi.status | none => none
      let seasonsStatus :=
        if mt = "tv" then
          match r.mediaInfo with
          | some mi =>
            match mi.seasons with
            | some l =>
              let ss := l.filterMap (fun s => s.seasonNumber.map (fun n => (n, s.status)))
              if ss.isEmpty then none else some ss
            | none => none
          | none => none
        else none
      some ⟨mt, tid, title, year, status, seasonsStatus⟩

/-- Body of the `/api/jellyseerr/search` response. -/
structure SearchResp where
  count : Nat
  items : List SearchItem
deriving DecidableEq

/-- Normalization of a parsed upstream `results` list:
`{"count": len(out), "items": out[:50]}`. -/
def jellyseerrProcess (wanted : String) (results : List JResult) : SearchResp :=
  let out := results.filterMap (jsItem wanted)
  ⟨out.length, out.take 50⟩

/-- Control flow of `jellyseerr_search` before any network traffic:
missing URL ⇒ HTTP 503; trimmed query shorter than 2 characters ⇒
empty result without an upstream call; otherwise the upstream GET is
issued with the stripped query. -/
inductive SearchStep where
  | err503
  | empty
  | upstream (q : String)
deriving DecidableEq

/-- The pre-network decision of `jellyseerr_search`. -/
def jellyseerr_search_step (cfg : Bool) (query : String) : SearchStep :=
  if !cfg then .err503
  else if (trimStr query).length < 2 then .empty
  else .upstream (trimStr query)

/-- Endpoint `jellyseerr_search` on the happy upstream path: `results`
is the parsed `results` array of the upstream response (consumed only
when the upstream call is actually made). -/
def jellyseerr_search (cfg : Bool) (query wanted : String) (results : List JResult) :
    Except Nat SearchResp :=
  match jellyseerr_search_step cfg query with
  | .err503 => .error 503
  | .empty => .ok ⟨0, []⟩
  | .upstream _ => .ok (jellyseerrProcess wanted results)

/-! ## TV tracker — `sonarr_importing` (`/api/sonarr/importing`) -/

/-- The `episode` sub-object of a queue record. -/
structure EpisodeObj where
  title : Option String
  seasonNumber : Option Int
  episodeNumber : Option Int
deriving DecidableEq

/-- Fields of one Sonarr queue record used by `sonarr_importing`. -/
structure QueueRec where
  status : Option String
  trackedDownloadState : Option String
  series : Option SeriesObj
  episode : Option EpisodeObj
  seriesTitle : Option String
  episodeTitle : Option String
  seasonNumber : Option Int
  episodeNumber : Option Int
  progress : Option ℚ
  timeleft : Option String
  outputPath : Option String
  downloadClientOutputPath : Option String
deriving DecidableEq

/-- The lower-cased text `f"{status} {state}".lower()` built from the
stripped status and tracked-download-state. -/
def importTextOf (rec : QueueRec) : String :=
  lowerStr (trimStr (rec.status.getD "") ++ " " ++ trimStr (rec.trackedDownloadState.getD ""))

/-- Keep predicate of `sonarr_importing`: the combined text contains
`"import"`, `"process"` or `"move"`. -/
def importMatch (rec : QueueRec) : Bool :=
  hasSubstr "import" (importTextOf rec) || hasSubstr "process" (importTextOf rec)
    || hasSubstr "move" (importTextOf rec)

/-- One normalized item of the `sonarr_importing` output. -/
structure ImportItem where
  seriesTitle : Option String
  episodeTitle : Option String
  seasonNumber : Option Int
  episodeNumber : Option Int
  status : Option String
  trackedDownloadState : Option String
  progress : Option ℚ
  timeleft : Option String
  outputPath : Option String
deriving DecidableEq

/-- Projection of one kept queue record. -/
def importItemOf (rec : QueueRec) : ImportItem :=
  let st := trimStr (rec.status.getD "")
  let state := trimStr (rec.trackedDownloadState.getD "")
  { seriesTitle := pyOrStr (match rec.series with | some s => s.title | none => none) rec.seriesTitle,
    episodeTitle := pyOrStr (match rec.episode with | some e => e.title | none => none) rec.episodeTitle,
    seasonNumber := pyOrInt (match rec.episode with | some e => e.seasonNumber | none => none) rec.seasonNumber,
    episodeNumber := pyOrInt (match rec.episode with | some e => e.episodeNumber | none => none) rec.episodeNumber,
    status := if st = "" then none else some st,
    trackedDownloadState := if state = "" then none else some state,
    progress := rec.progress,
    timeleft := rec.timeleft,
    outputPath := pyOrStr rec.outputPath rec.downloadClientOutputPath }

/-- Sort key of `sonarr_importing`: the string concatenation
`str(x.get("timeleft") or "") + str(x.get("seriesTitle") or "")`. -/
def importKey (it : ImportItem) : String :=
  (it.timeleft.getD "") ++ (it.seriesTitle.getD "")

/-- Comparison relation used to sort `sonarr_importing` items. -/
def importRel (a b : ImportItem) : Prop :=
  charsLe (importKey a).data (importKey b).data = true

instance : DecidableRel importRel := fun _ _ => instDecidableEqBool _ _

/-- Pre-truncation sorted list of `sonarr_importing`. -/
def importAll (records : List QueueRec) : List ImportItem :=
  List.insertionSort importRel
    (records.filterMap (fun r => if importMatch r then some (importItemOf r) else none))

/-- Body of the `/api/sonarr/importing` response. -/
structure ImportResp where
  count : Nat
  items : List ImportItem
deriving DecidableEq

/-- Endpoint `sonarr_importing` after the upstream call. -/
def sonarr_importing (limit : Int) (records : List QueueRec) : ImportResp :=
  let items := (importAll records).take (max 0 (min limit 50)).toNat
  ⟨items.length, items⟩

/-- Ordering the specification ascribes to the `sonarr_importing`
output: ascending by the pair (time-remaining, series title). -/
def importClaimLE (a b : ImportItem) : Prop :=
  charsLt (a.timeleft.getD "").data (b.timeleft.getD "").data = true
    ∨ (a.timeleft.getD "" = b.timeleft.getD ""
        ∧ charsLe (a.seriesTitle.getD "").data (b.seriesTitle.getD "").data = true)

instance : DecidableRel importClaimLE := fun a b =>
  if h : charsLt (a.timeleft.getD "").data (b.timeleft.getD "").data = true
      ∨ (a.timeleft.getD "" = b.timeleft.getD ""
          ∧ charsLe (a.seriesTitle.getD "").data (b.seriesTitle.getD "").data = true)
  then isTrue h else isFalse h

/-! ## Helper lemmas on the comparators -/

theorem charsLe_total : ∀ a b : List Char, charsLe a b = true ∨ charsLe b a = true
  | [], _ => Or.inl rfl
  | _ :: _, [] => Or.inr rfl
  | a :: as, b :: bs => by
    rcases lt_trichotomy a b with h | h | h
    · exact Or.inl (by simp [charsLe, h])
    · subst h
      rcases charsLe_total as bs with h2 | h2
      · exact Or.inl (by simp [charsLe, h2])
      · exact Or.inr (by simp [charsLe, h2])
    · exact Or.inr (by simp [charsLe, h])

theorem charsLe_trans : ∀ a b c : List Char,
    charsLe a b = true → charsLe b c = true → charsLe a c = true
  | [], _, _, _, _ => rfl
  | _ :: _, [], _, hab, _ => by simp [charsLe] at hab
  | _ :: _, _ :: _, [], _, hbc => by simp [charsLe] at hbc
  | a :: as, b :: bs, c :: cs, hab, hbc => by
    by_cases h1 : a < b
    · by_cases h2 : b < c
      · simp [charsLe, h1.trans h2]
      · by_cases h2b : c < b
        · simp [charsLe, h2, h2b] at hbc
        · have hbc2 : b = c := le_antisymm (le_of_not_lt h2b) (le_of_not_lt h2)
          subst hbc2
          simp [charsLe, h1]
    · by_cases h1b : b < a
      · simp [charsLe, h1, h1b] at hab
      · have hab2 : a = b := le_antisymm (le_of_not_lt h1b) (le_of_not_lt h1)
        subst hab2
        simp only [charsLe, lt_self_iff_false, if_false] at hab
        by_cases h2 : a < c
        · simp [charsLe, h2]
        · by_cases h2b : c < a
          · simp [charsLe, h2, h2b] at hbc
          · have h3 : a = c := le_antisymm (le_of_not_lt h2b) (le_of_not_lt h2)
            subst h3
            simp only [charsLe, lt_self_iff_false, if_false] at hbc ⊢
            exact charsLe_trans as bs cs hab hbc

/-- Prepending a common prefix does not change the comparison. -/
theorem charsLe_append_left : ∀ (p a b : List Char),
    charsLe (p ++ a) (p ++ b) = charsLe a b
  | [], _, _ => rfl
  | c :: p, a, b => by
    simp only [List.cons_append, charsLe, lt_self_iff_false, if_false]
    exact charsLe_append_left p a b

/-- Unfolding of the lexicographic key comparison. -/
theorem lexKeyLe_iff (k1 k2 : Nat × Int × List Char) :
    lexKeyLe k1 k2 = true ↔
      k1.1 < k2.1 ∨ (k1.1 = k2.1 ∧ k1.2.1 < k2.2.1)
        ∨ (k1.1 = k2.1 ∧ k1.2.1 = k2.2.1 ∧ charsLe k1.2.2 k2.2.2 = true) := by
  obtain ⟨u1, d1, t1⟩ := k1
  obtain ⟨u2, d2, t2⟩ := k2
  simp only [lexKeyLe]
  constructor
  · intro h
    by_cases h1 : u1 < u2
    · exact Or.inl h1
    · by_cases h2 : u2 < u1
      · simp [h1, h2] at h
      · have hu : u1 = u2 := by omega
        by_cases h3 : d1 < d2
        · exact Or.inr (Or.inl ⟨hu, h3⟩)
        · by_cases h4 : d2 < d1
          · simp [h1, h2, h3, h4] at h
          · have hd : d1 = d2 := by omega
            refine Or.inr (Or.inr ⟨hu, hd, ?_⟩)
            simpa [h1, h2, h3, h4] using h
  · rintro (h | ⟨hu, hd⟩ | ⟨hu, hd, ht⟩)
    · simp [h]
    · subst hu; simp [hd]
    · subst hu; subst hd; simp [ht]

theorem lexKeyLe_total (k1 k2 : Nat × Int × List Char) :
    lexKeyLe k1 k2 = true ∨ lexKeyLe k2 k1 = true := by
  rw [lexKeyLe_iff, lexKeyLe_iff]
  rcases lt_trichotomy k1.1 k2.1 with h | h | h
  · exact Or.inl (Or.inl h)
  · rcases lt_trichotomy k1.2.1 k2.2.1 with h2 | h2 | h2
    · exact Or.inl (Or.inr (Or.inl ⟨h, h2⟩))
    · rcases charsLe_total k1.2.2 k2.2.2 with h3 | h3
      · exact Or.inl (Or.inr (Or.inr ⟨h, h2, h3⟩))
      · exact Or.inr (Or.inr (Or.inr ⟨h.symm, h2.symm, h3⟩))
    · exact Or.inr (Or.inr (Or.inl ⟨h.symm, h2⟩))
  · exact Or.inr (Or.inl h)

theorem lexKeyLe_trans (k1 k2 k3 : Nat × Int × List Char)
    (h12 : lexKeyLe k1 k2 = true) (h23 : lexKeyLe k2 k3 = true) :
    lexKeyLe k1 k3 = true := by
  rw [lexKeyLe_iff] at h12 h23 ⊢
  rcases h12 with h | ⟨hu, hd⟩ | ⟨hu, hd, ht⟩ <;>
    rcases h23 with g | ⟨gu, gd⟩ | ⟨gu, gd, gt⟩
  · exact Or.inl (h.trans g)
  · exact Or.inl (gu ▸ h)
  · exact Or.inl (gu ▸ h)
  · exact Or.inl (hu ▸ g)
  · exact Or.inr (Or.inl ⟨hu.trans gu, hd.trans gd⟩)
  · exact Or.inr (Or.inl ⟨hu.trans gu, gd ▸ hd⟩)
  · exact Or.inl (hu ▸ g)
  · exact Or.inr (Or.inl ⟨hu.trans gu, hd ▸ gd⟩)
  · exact Or.inr (Or.inr ⟨hu.trans gu, hd.trans gd, charsLe_trans _ _ _ ht gt⟩)

/-! ## Helper lemmas on `radarr_soon` -/

theorem soonBeyond_iff (rd : Option Int) (mf : Int) :
    soonBeyond rd mf = true ↔ ∃ d, rd = some d ∧ mf < d := by
  cases rd <;> simp [soonBeyond]

/-- Dispatch of `soonProcess` on a known integer `id`. -/
theorem soonProcess_eq (queuedIds : List Int) (today maxFuture : Int) (m : Movie) (mid : Int)
    (h : m.id = some mid) :
    soonProcess queuedIds today maxFuture m = soonItemOf queuedIds today maxFuture m mid := by
  unfold soonProcess
  rw [h]

/-- Dispatch of `soonProcess` without an integer `id`. -/
theorem soonProcess_eq_none (queuedIds : List Int) (today maxFuture : Int) (m : Movie)
    (h : m.id = none) :
    soonProcess queuedIds today maxFuture m = none := by
  unfold soonProcess
  rw [h]

/-- Facts holding of every item `soonProcess` emits. -/
theorem soonProcess_shape (queuedIds : List Int) (today maxFuture : Int) (m : Movie)
    (it : SoonItem) (h : soonProcess queuedIds today maxFuture m = some it) :
    m.id = some it.id ∧ it.monitored = m.monitored ∧ it.hasFile = m.hasFile
      ∧ m.monitored = true
      ∧ it.releaseDate = pick_release_date m
      ∧ it.reason = soonClassify (queuedIds.contains it.id) (pick_release_date m) today
      ∧ (it.hasFile = true → queuedIds.contains it.id = true)
      ∧ ¬(it.reason = SoonReason.Unreleased ∧ soonBeyond it.releaseDate maxFuture = true) := by
  rcases hid : m.id with _ | mid
  · rw [soonProcess_eq_none queuedIds today maxFuture m hid] at h
    exact absurd h (by simp)
  · rw [soonProcess_eq queuedIds today maxFuture m mid hid] at h
    unfold soonItemOf at h
    by_cases h1 : (!m.monitored) = true
    · rw [if_pos h1] at h; exact absurd h (by simp)
    · rw [if_neg h1] at h
      by_cases h2 : (m.hasFile && !queuedIds.contains mid) = true
      · rw [if_pos h2] at h; exact absurd h (by simp)
      · rw [if_neg h2] at h
        by_cases h3 : soonClassify (queuedIds.contains mid) (pick_release_date m) today
              = SoonReason.Unreleased ∧ soonBeyond (pick_release_date m) maxFuture = true
        · rw [if_pos h3] at h; exact absurd h (by simp)
        · rw [if_neg h3] at h
          cases h
          have hmon : m.monitored = true := by
            cases hb : m.monitored
            · exact absurd (by simp [hb]) h1
            · rfl
          refine ⟨rfl, rfl, rfl, hmon, rfl, rfl, ?_, h3⟩
          intro hf
          by_contra hq
          have hq2 : queuedIds.contains mid = false := by simpa using hq
          have hf2 : m.hasFile = true := hf
          exact h2 (by rw [hf2, hq2]; rfl)

/-- The implementation's sort relation implies the ordering the
specification describes. -/
theorem soonRel_claim (a b : SoonItem) (h : soonRel a b) : soonClaimLE a b := by
  unfold soonRel at h
  rw [lexKeyLe_iff] at h
  unfold soonClaimLE
  rcases ha : a.releaseDate with _ | da <;> rcases hb : b.releaseDate with _ | db
  · simpa [soonKey, ha, hb] using h
  · simp [soonKey, ha, hb] at h
  · trivial
  · simpa [soonKey, ha, hb] using h

/-! ## Claim theorems -/

/-- C1: in the `radarr_soon` aggregation, an unmonitored movie is never
included; a monitored movie with a file that is absent from the queue is
excluded; a monitored movie present in the queue is classified `Queued`
(even with a file); a monitored, file-less, un-queued movie is classified
`Missing` when its effective release date is `≤ today` and `Unreleased`
otherwise, including when no release date is known. -/
theorem C1_soon_classification (movies : List Movie) (queued : List Int)
    (today daysFuture limit : Int) (m : Movie) (mid : Int) (hid : m.id = some mid) :
    (m.monitored = false →
        soonProcess queued today (soonMaxFuture today daysFuture) m = none)
    ∧ (m.monitored = true → m.hasFile = true → mid ∉ queued →
        soonProcess queued today (soonMaxFuture today daysFuture) m = none)
    ∧ (m.monitored = true → mid ∈ queued →
        (soonProcess queued today (soonMaxFuture today daysFuture) m ≠ none
          ∧ ∀ it, soonProcess queued today (soonMaxFuture today daysFuture) m = some it →
              it.reason = SoonReason.Queued))
    ∧ (m.monitored = true → m.hasFile = false → mid ∉ queued →
        ∀ d, pick_release_date m = some d → d ≤ today →
          (soonProcess queued today (soonMaxFuture today daysFuture) m ≠ none
            ∧ ∀ it, soonProcess queued today (soonMaxFuture today daysFuture) m = some it →
                it.reason = SoonReason.Missing))
    ∧ (mid ∉ queued →
        (pick_release_date m = none ∨ ∃ d, pick_release_date m = some d ∧ today < d) →
        soonClassify (queued.contains mid) (pick_release_date m) today
          = SoonReason.Unreleased)
    ∧ (∀ it ∈ (radarr_soon movies queued today daysFuture limit).items,
        it.monitored = true
          ∧ (it.hasFile = true → it.id ∈ queued)
          ∧ (it.id ∈ queued → it.reason = SoonReason.Queued)
          ∧ (it.id ∉ queued →
              it.hasFile = false
                ∧ ((∃ d, it.releaseDate = some d ∧ d ≤ today) →
                    it.reason = SoonReason.Missing)
                ∧ ((it.releaseDate = none ∨ ∃ d, it.releaseDate = some d ∧ today < d) →
                    it.reason = SoonReason.Unreleased))) := by
  refine ⟨?_, ?_, ?_, ?_, ?_, ?_⟩
  · intro hmon
    rw [soonProcess_eq queued today (soonMaxFuture today daysFuture) m mid hid]
    simp [soonItemOf, hmon]
  · intro hmon hfile hq
    rw [soonProcess_eq queued today (soonMaxFuture today daysFuture) m mid hid]
    simp [soonItemOf, hmon, hfile, hq]
  · intro hmon hq
    refine ⟨?_, ?_⟩
    · rw [soonProcess_eq queued today (soonMaxFuture today daysFuture) m mid hid]
      simp [soonItemOf, hmon, hq, soonClassify]
    · intro it h
      obtain ⟨hid2, _, _, _, _, hreason, _, _⟩ := soonProcess_shape _ _ _ _ _ h
      have hmid : it.id = mid := by
        rw [hid] at hid2
        exact (Option.some.inj hid2).symm
      rw [hreason, hmid]
      simp [soonClassify, hq]
  · intro hmon hfile hq d hd hdt
    refine ⟨?_, ?_⟩
    · rw [soonProcess_eq queued today (soonMaxFuture today daysFuture) m mid hid]
      simp [soonItemOf, hmon, hfile, hq, soonClassify, hd, hdt]
    · intro it h
      obtain ⟨hid2, _, _, _, _, hreason, _, _⟩ := soonProcess_shape _ _ _ _ _ h
      have hmid : it.id = mid := by
        rw [hid] at hid2
        exact (Option.some.inj hid2).symm
      rw [hreason, hmid, hd]
      simp [soonClassify, hq, hdt]
  · intro hq hrd
    rcases hrd with hrd | ⟨d, hd, hdt⟩
    · rw [hrd]
      simp [soonClassify, hq]
    · rw [hd]
      simp [soonClassify, hq, not_le.mpr hdt]
  · intro it hit
    have hitems : (radarr_soon movies queued today daysFuture limit).items
        = (soonAll movies queued today daysFuture).take (max 0 (min limit 50)).toNat := rfl
    rw [hitems] at hit
    have hmem : it ∈ soonAll movies queued today daysFuture := List.take_subset _ _ hit
    unfold soonAll at hmem
    have hmem2 := (List.mem_insertionSort soonRel).mp hmem
    obtain ⟨mm, hmm, hsp⟩ := List.mem_filterMap.mp hmem2
    obtain ⟨hid2, hmon2, hfile2, hmon3, hrd2, hreason2, hfq2, hkeep2⟩ :=
      soonProcess_shape _ _ _ _ _ hsp
    refine ⟨by rw [hmon2, hmon3], ?_, ?_, ?_⟩
    · intro hf
      simpa using hfq2 hf
    · intro hq
      rw [hreason2]
      simp [soonClassify, hq]
    · intro hq
      refine ⟨?_, ?_, ?_⟩
      · cases hfb : it.hasFile
        · rfl
        · exact absurd (hfq2 hfb) (by simp [hq])
      · rintro ⟨d, hd, hdt⟩
        rw [hreason2, ← hrd2, hd]
        simp [soonClassify, hq, hdt]
      · rintro (hd | ⟨d, hd, hdt⟩)
        · rw [hreason2, ← hrd2, hd]
          simp [soonClassify, hq]
        · rw [hreason2, ← hrd2, hd]
          simp [soonClassify, hq, not_le.mpr hdt]

/-- Witness for C1: a monitored movie that has a file and sits in the
queue is classified `Queued`. -/
theorem C1_witness :
    soonProcess [7] 0 (soonMaxFuture 0 10)
        ⟨some 7, some "Q", none, true, true, none, none, none, none, none⟩ ≠ none
      ∧ ∀ it, soonProcess [7] 0 (soonMaxFuture 0 10)
            ⟨some 7, some "Q", none, true, true, none, none, none, none, none⟩ = some it →
          it.reason = SoonReason.Queued :=
  (C1_soon_classification [] [7] 0 10 5
      ⟨some 7, some "Q", none, true, true, none, none, none, none, none⟩ 7 rfl).2.2.1
    rfl (by decide)

/-- C4: in the `radarr_soon` output, an `Unreleased` item whose release
date lies strictly beyond `today + clamp(days_future)` is dropped;
qualifying movies classified `Queued` or `Missing` always reach the
sorted list regardless of date; and the emitted items are ordered with
unknown release dates last, known dates ascending, and ties broken by
ascending title. -/
theorem C4_soon_horizon_and_sort (movies : List Movie) (queued : List Int)
    (today daysFuture limit : Int) :
    (∀ it ∈ soonAll movies queued today daysFuture,
        ¬(it.reason = SoonReason.Unreleased
            ∧ ∃ d, it.releaseDate = some d ∧ soonMaxFuture today daysFuture < d))
    ∧ (∀ m ∈ movies, ∀ mid, m.id = some mid → m.monitored = true →
        (m.hasFile = false ∨ mid ∈ queued) →
        soonClassify (queued.contains mid) (pick_release_date m) today
            ≠ SoonReason.Unreleased →
        ∃ it, soonProcess queued today (soonMaxFuture today daysFuture) m = some it
          ∧ it ∈ soonAll movies queued today daysFuture)
    ∧ List.Pairwise soonClaimLE (radarr_soon movies queued today daysFuture limit).items := by
  refine ⟨?_, ?_, ?_⟩
  · intro it hit
    unfold soonAll at hit
    have hmem := (List.mem_insertionSort soonRel).mp hit
    obtain ⟨mm, _, hsp⟩ := List.mem_filterMap.mp hmem
    obtain ⟨_, _, _, _, _, _, _, hkeep⟩ := soonProcess_shape _ _ _ _ _ hsp
    rintro ⟨hr, d, hd, hlt⟩
    exact hkeep ⟨hr, (soonBeyond_iff _ _).mpr ⟨d, hd, hlt⟩⟩
  · intro m hm mid hid hmon hqual hclass
    have hform : soonProcess queued today (soonMaxFuture today daysFuture) m ≠ none := by
      rw [soonProcess_eq queued today (soonMaxFuture today daysFuture) m mid hid]
      unfold soonItemOf
      rcases hqual with hf | hq
      · have hclass2 : soonClassify (decide (mid ∈ queued)) (pick_release_date m) today
            ≠ SoonReason.Unreleased := by simpa using hclass
        simp [hmon, hf, hclass2]
      · have hclass2 : soonClassify true (pick_release_date m) today
            ≠ SoonReason.Unreleased := by simpa [hq] using hclass
        simp [hmon, hq, hclass2]
    obtain ⟨it, hit⟩ := Option.ne_none_iff_exists'.mp hform
    refine ⟨it, hit, ?_⟩
    unfold soonAll
    rw [List.mem_insertionSort]
    exact List.mem_filterMap.mpr ⟨m, hm, hit⟩
  · haveI : IsTotal SoonItem soonRel := ⟨fun a b => lexKeyLe_total _ _⟩
    haveI : IsTrans SoonItem soonRel := ⟨fun a b c hab hbc => lexKeyLe_trans _ _ _ hab hbc⟩
    have hs : List.Pairwise soonRel (soonAll movies queued today daysFuture) :=
      List.sorted_insertionSort soonRel _
    have hitems : (radarr_soon movies queued today daysFuture limit).items
        = (soonAll movies queued today daysFuture).take (max 0 (min limit 50)).toNat := rfl
    rw [hitems]
    exact (List.Pairwise.sublist (List.take_sublist _ _) hs).imp
      (fun h => soonRel_claim _ _ h)

/-- Witness for C4: a monitored, file-less movie with a past digital
release date (classified `Missing`) reaches the sorted list. -/
theorem C4_witness :
    ∃ it, soonProcess [] 100 (soonMaxFuture 100 30)
          ⟨some 1, some "A", none, true, false, none, some 90, none, none, none⟩ = some it
        ∧ it ∈ soonAll [⟨some 1, some "A", none, true, false, none, some 90, none, none, none⟩]
            [] 100 30 :=
  (C4_soon_horizon_and_sort
      [⟨some 1, some "A", none, true, false, none, some 90, none, none, none⟩] [] 100 30 10).2.1
    ⟨some 1, some "A", none, true, false, none, some 90, none, none, none⟩ (by decide) 1 rfl rfl
    (Or.inl rfl) (by decide)

/-- C5: the `days`/`limit` query parameters are clamped to their
documented ranges before use: `days_future = 999999` yields the same
horizon (and the same items) as `3650`; the TV-tracker upcoming window
always spans `max 1 (min days 30) ∈ [1, 30]` days; a negative `limit`
yields an empty items list; and the items list never exceeds 50. -/
theorem C5_clamping (movies : List Movie) (queued : List Int) (today : Int)
    (daysFuture limit days : Int) (entries : List Episode) :
    soonMaxFuture today 999999 = soonMaxFuture today 3650
    ∧ (radarr_soon movies queued today 999999 limit).items
        = (radarr_soon movies queued today 3650 limit).items
    ∧ (1 ≤ max 1 (min daysFuture 3650) ∧ max 1 (min daysFuture 3650) ≤ 3650)
    ∧ (sonarr_window_end today days = today + max 1 (min days 30)
        ∧ 1 ≤ sonarr_window_end today days - today
        ∧ sonarr_window_end today days - today ≤ 30
        ∧ (1 ≤ days → days ≤ 30 → sonarr_window_end today days = today + days))
    ∧ (limit < 0 →
        (radarr_soon movies queued today daysFuture limit).items = []
          ∧ (sonarr_upcoming days limit entries).items = [])
    ∧ ((radarr_soon movies queued today daysFuture limit).items.length ≤ 50
        ∧ (sonarr_upcoming days limit entries).items.length ≤ 50) := by
  have hmf : soonMaxFuture today 999999 = soonMaxFuture today 3650 := by
    unfold soonMaxFuture
    norm_num
  refine ⟨hmf, ?_, ⟨by omega, by omega⟩, ⟨rfl, ?_, ?_, ?_⟩, ?_, ?_, ?_⟩
  · simp only [radarr_soon, soonAll, hmf]
  · unfold sonarr_window_end; omega
  · unfold sonarr_window_end; omega
  · intro h1 h2; unfold sonarr_window_end; omega
  · intro h
    have hn : (max 0 (min limit 50)).toNat = 0 := by omega
    constructor
    · have hi : (radarr_soon movies queued today daysFuture limit).items
          = (soonAll movies queued today daysFuture).take (max 0 (min limit 50)).toNat := rfl
      rw [hi, hn, List.take_zero]
    · have hi : (sonarr_upcoming days limit entries).items
          = ((List.insertionSort epRel entries).map epProj).take
              (max 0 (min limit 50)).toNat := rfl
      rw [hi, hn, List.take_zero]
  · have hi : (radarr_soon movies queued today daysFuture limit).items
        = (soonAll movies queued today daysFuture).take (max 0 (min limit 50)).toNat := rfl
    rw [hi, List.length_take]
    omega
  · have hi : (sonarr_upcoming days limit entries).items
        = ((List.insertionSort epRel entries).map epProj).take
            (max 0 (min limit 50)).toNat := rfl
    rw [hi, List.length_take]
    omega

/-- Witness for C5: with `limit = -5` both endpoints return an empty
items list. -/
theorem C5_witness :
    (radarr_soon [] [] 0 365 (-5)).items = []
      ∧ (sonarr_upcoming 7 (-5) []).items = [] :=
  (C5_clamping [] [] 0 365 (-5) 7 []).2.2.2.2.1 (by norm_num)

/-- C2 (counterexample): a transport failure in the Sonarr probe alone
aborts the whole `/api/status` response — no entry is produced for any
service, refuting per-probe fault isolation. -/
theorem C2_counterexample :
    status (status_sonarr true ProbeHttp.transport)
        (status_radarr true (ProbeHttp.resp 200 none (some (some "5.0"))))
        (status_qb true (QbCall.resp 200 "Ok.") (QbCall.resp 200 "4.6.0"))
        (status_jellyfin true (ProbeHttp.resp 200 none (some (some "10.9"))))
      = Except.error ()
    ∧ status_sonarr true ProbeHttp.transport = Except.error ()
    ∧ ∀ resp : StatusResp,
        status (status_sonarr true ProbeHttp.transport)
            (status_radarr true (ProbeHttp.resp 200 none (some (some "5.0"))))
            (status_qb true (QbCall.resp 200 "Ok.") (QbCall.resp 200 "4.6.0"))
            (status_jellyfin true (ProbeHttp.resp 200 none (some (some "10.9"))))
          ≠ Except.ok resp :=
  ⟨rfl, rfl, fun _ h => Except.noConfusion h⟩

/-- C2 (amended): probe failures that are reported as values — missing
configuration, an upstream HTTP error status, a qBittorrent login
rejection, a Jellyfin JSON parse failure — are isolated: whenever every
probe returns a `ServiceStatus`, the response carries one entry per
service, the failing ones with `ok = false` and a detail; but an
uncaught transport failure (or, for Sonarr/Radarr, an unparsable JSON
body) aborts the entire response. -/
theorem C2_amended (cs cr cq cj : Bool) (ps pr pj : ProbeHttp) (ql qv : QbCall)
    (s r q j : ServiceStatus)
    (hs : status_sonarr cs ps = Except.ok s) (hr : status_radarr cr pr = Except.ok r)
    (hq : status_qb cq ql qv = Except.ok q) (hj : status_jellyfin cj pj = Except.ok j) :
    status (status_sonarr cs ps) (status_radarr cr pr) (status_qb cq ql qv)
        (status_jellyfin cj pj)
      = Except.ok ⟨statusOverallOk [s, r, q, j], [s, r, q, j]⟩
    ∧ (∀ st : Nat, 400 ≤ st → ∀ ct body,
        status_sonarr true (ProbeHttp.resp st ct body)
          = Except.ok ⟨"Sonarr", false, some ("http " ++ toString st)⟩)
    ∧ (∀ ra2 qb2 je2, status (Except.error ()) ra2 qb2 je2 = Except.error ()) := by
  refine ⟨?_, ?_, ?_⟩
  · rw [hs, hr, hq, hj]
    rfl
  · intro st hst ct body
    unfold status_sonarr
    simp [hst]
  · intro ra2 qb2 je2
    rfl

/-- Witness for the amended C2: four value-level failures (not
configured, HTTP 500, login rejected, invalid JSON) all appear in the
response. -/
theorem C2_witness :
    status (status_sonarr false ProbeHttp.transport)
        (status_radarr true (ProbeHttp.resp 500 none none))
        (status_qb true (QbCall.resp 403 "Fails") (QbCall.resp 200 "v1"))
        (status_jellyfin true (ProbeHttp.resp 200 (some "text/html") none))
      = Except.ok
          ⟨statusOverallOk
              [⟨"Sonarr", false, some "not configured"⟩,
               ⟨"Radarr", false, some "http 500"⟩,
               ⟨"qBittorrent", false, some "qBittorrent login failed"⟩,
               ⟨"Jellyfin", false, some "invalid json (text/html)"⟩],
           [⟨"Sonarr", false, some "not configured"⟩,
            ⟨"Radarr", false, some "http 500"⟩,
            ⟨"qBittorrent", false, some "qBittorrent login failed"⟩,
            ⟨"Jellyfin", false, some "invalid json (text/html)"⟩]⟩ :=
  (C2_amended false true true true ProbeHttp.transport (ProbeHttp.resp 500 none none)
      (ProbeHttp.resp 200 (some "text/html") none) (QbCall.resp 403 "Fails")
      (QbCall.resp 200 "v1")
      ⟨"Sonarr", false, some "not configured"⟩
      ⟨"Radarr", false, some "http 500"⟩
      ⟨"qBittorrent", false, some "qBittorrent login failed"⟩
      ⟨"Jellyfin", false, some "invalid json (text/html)"⟩
      rfl rfl rfl rfl).1

/-- C3: the overall `ok` of `/api/status` is the conjunction of `ok`
over exactly the entries whose detail is not the literal
`"not configured"`: such entries never influence the overall value, and
any other entry with `ok = false` forces it to `false`. -/
theorem C3_status_overall (items : List ServiceStatus) :
    (statusOverallOk items = true ↔
        ∀ x ∈ items, x.detail ≠ some "not configured" → x.ok = true)
    ∧ (∀ pre post x, x.detail = some "not configured" →
        statusOverallOk (pre ++ x :: post) = statusOverallOk (pre ++ post))
    ∧ (∀ x ∈ items, x.detail ≠ some "not configured" → x.ok = false →
        statusOverallOk items = false) := by
  have key : ∀ l : List ServiceStatus, (statusOverallOk l = true ↔
      ∀ x ∈ l, x.detail ≠ some "not configured" → x.ok = true) := by
    intro l
    unfold statusOverallOk
    rw [List.all_eq_true]
    constructor
    · intro h x hx hd
      exact h x (List.mem_filter.mpr ⟨hx, by simpa using hd⟩)
    · intro h x hx
      obtain ⟨hx2, hd⟩ := List.mem_filter.mp hx
      exact h x hx2 (by simpa using hd)
  refine ⟨key items, ?_, ?_⟩
  · intro pre post x hx
    simp [statusOverallOk, List.filter_append, List.filter_cons, hx]
  · intro x hx hd hok
    cases h : statusOverallOk items
    · rfl
    · have h2 := (key items).mp h x hx hd
      rw [hok] at h2
      simp at h2

/-- Witness for C3: an entry with `ok = false` and a non-sentinel detail
forces the overall value to `false`, while a `"not configured"` entry is
present but irrelevant. -/
theorem C3_witness :
    statusOverallOk
      [⟨"Sonarr", true, some "v4"⟩, ⟨"Radarr", false, some "http 500"⟩,
       ⟨"qBittorrent", false, some "not configured"⟩, ⟨"Jellyfin", true, some "ok"⟩]
      = false :=
  (C3_status_overall
      [⟨"Sonarr", true, some "v4"⟩, ⟨"Radarr", false, some "http 500"⟩,
       ⟨"qBittorrent", false, some "not configured"⟩, ⟨"Jellyfin", true, some "ok"⟩]).2.2
    ⟨"Radarr", false, some "http 500"⟩ (by decide) (by decide) rfl

/-- C7 (counterexample): with a prior sample taken half a millisecond
earlier, the reported rate divides the counter delta by the clamped
interval `max 0.001 (now - last)`, not by the true elapsed time: the
delta `1` over `1/2000` seconds reports `1000` instead of `2000`. -/
theorem C7_counterexample :
    (systemNet ⟨some 0, some 0, some 0⟩ 1 1 (1 / 2000)).rxBps = some 1000
    ∧ ((1 : ℚ) - 0) / ((1 / 2000 : ℚ) - 0) = 2000
    ∧ (1000 : ℚ) ≠ 2000 := by
  refine ⟨?_, by norm_num, by norm_num⟩
  simp only [systemNet]
  norm_num

/-- C7 (amended): the first poll after process start reports `none`
(not zero); on a later poll the rate is the counter delta divided by
`max 0.001 (elapsed)` — hence exactly `Δ / elapsed` whenever
`elapsed ≥ 0.001` and the delta is nonnegative — and a negative delta
(counter reset) reports exactly `0`, never a negative rate. -/
theorem C7_amended (st : NetState) (rx tx now : ℚ) :
    ((systemNet netInit rx tx now).rxBps = none
      ∧ (systemNet netInit rx tx now).txBps = none
      ∧ (systemNet netInit rx tx now).state = ⟨some rx, some tx, some now⟩)
    ∧ (∀ lrx ltx lt, st = ⟨some lrx, some ltx, some lt⟩ →
        (systemNet st rx tx now).rxBps
            = some (max 0 ((rx - lrx) / max (1 / 1000) (now - lt)))
        ∧ (1 / 1000 ≤ now - lt → 0 ≤ rx - lrx →
            (systemNet st rx tx now).rxBps = some ((rx - lrx) / (now - lt)))
        ∧ (rx - lrx < 0 → (systemNet st rx tx now).rxBps = some 0)
        ∧ (systemNet st rx tx now).state = ⟨some rx, some tx, some now⟩) := by
  constructor
  · exact ⟨rfl, rfl, rfl⟩
  · intro lrx ltx lt hst
    subst hst
    refine ⟨rfl, ?_, ?_, rfl⟩
    · intro helapsed hdelta
      simp only [systemNet]
      have hmax : max (1 / 1000 : ℚ) (now - lt) = now - lt := max_eq_right helapsed
      rw [hmax]
      have hpos : (0 : ℚ) < now - lt := lt_of_lt_of_le (by norm_num) helapsed
      have hnn : 0 ≤ (rx - lrx) / (now - lt) := div_nonneg hdelta (le_of_lt hpos)
      rw [max_eq_right hnn]
    · intro hneg
      simp only [systemNet]
      have hpos : (0 : ℚ) < max (1 / 1000) (now - lt) :=
        lt_max_of_lt_left (by norm_num)
      have hlt : (rx - lrx) / max (1 / 1000) (now - lt) < 0 := div_neg_of_neg_of_pos hneg hpos
      rw [max_eq_left (le_of_lt hlt)]

/-- Witness for the amended C7: a second poll two seconds after the
first, with a counter delta of five, reports `5 / 2`. -/
theorem C7_witness :
    (systemNet ⟨some 0, some 0, some 0⟩ 5 7 2).rxBps = some ((5 - 0) / (2 - 0) : ℚ) :=
  ((C7_amended ⟨some 0, some 0, some 0⟩ 5 7 2).2 0 0 0 rfl).2.1 (by norm_num) (by norm_num)

/-- C6: the torrent `active` filter passes `all` upstream and is applied
client-side: an item is kept iff its download speed is nonzero, its
upload speed is nonzero, or its lower-cased state is in the fixed
active-state set; `pausedDL` at zero speeds is excluded while
`stalledDL` at zero speeds is included. -/
theorem C6_active_filter (torrents : List Torrent) (limit : Option Int) (f : String) :
    qbUpstreamFilter "active" = "all"
    ∧ (f ≠ "active" → qbUpstreamFilter f = f)
    ∧ (∀ t : Torrent, activeKeep t = true ↔
        (t.dlspeed.getD 0 ≠ 0 ∨ t.upspeed.getD 0 ≠ 0
          ∨ lowerStr (t.state.getD "") ∈ activeStates))
    ∧ (∀ t ∈ torrents, (t ∈ torrents.filter activeKeep ↔ activeKeep t = true))
    ∧ (∀ t ∈ (qbittorrent_torrents "active" limit torrents).items, activeKeep t = true)
    ∧ activeKeep ⟨none, none, some "pausedDL", none, some 0, some 0, none, none, none,
        none, none, none, none, none, none⟩ = false
    ∧ activeKeep ⟨none, none, some "stalledDL", none, some 0, some 0, none, none, none,
        none, none, none, none, none, none⟩ = true := by
  refine ⟨rfl, ?_, ?_, ?_, ?_, by decide, by decide⟩
  · intro hf
    unfold qbUpstreamFilter
    rw [if_neg hf]
  · intro t
    simp [activeKeep, Nat.pos_iff_ne_zero, List.elem_iff, or_assoc]
  · intro t ht
    exact ⟨fun h => (List.mem_filter.mp h).2, fun h => List.mem_filter.mpr ⟨ht, h⟩⟩
  · intro t ht
    have hmem : t ∈ torrents.filter activeKeep := by
      rcases limit with _ | l
      · have hi : (qbittorrent_torrents "active" none torrents).items
            = torrents.filter activeKeep := rfl
        rw [hi] at ht
        exact ht
      · by_cases hl : l > 0
        · have hi : (qbittorrent_torrents "active" (some l) torrents).items
              = if l > 0 then (torrents.filter activeKeep).take l.toNat
                else torrents.filter activeKeep := rfl
          rw [hi, if_pos hl] at ht
          exact List.take_subset _ _ ht
        · have hi : (qbittorrent_torrents "active" (some l) torrents).items
              = if l > 0 then (torrents.filter activeKeep).take l.toNat
                else torrents.filter activeKeep := rfl
          rw [hi, if_neg hl] at ht
          exact ht
    exact (List.mem_filter.mp hmem).2

/-- Witness for C6: the stalled torrent is in the filtered `active`
items even with zero speeds. -/
theorem C6_witness :
    activeKeep ⟨none, some "s", some "stalledDL", none, some 0, some 0, none, none, none,
        none, none, none, none, none, none⟩ = true :=
  (C6_active_filter
      [⟨none, some "s", some "stalledDL", none, some 0, some 0, none, none, none,
        none, none, none, none, none, none⟩] none "all").2.2.2.2.1
    ⟨none, some "s", some "stalledDL", none, some 0, some 0, none, none, none,
      none, none, none, none, none, none⟩ (by decide)

/-- Every item `jsItem` emits carries the lower-cased requested type. -/
theorem jsItem_type (wanted : String) (r : JResult) (it : SearchItem)
    (h : jsItem wanted r = some it) : it.mediaType = lowerStr wanted := by
  simp only [jsItem] at h
  by_cases hmt : lowerStr (trimStr (r.mediaType.getD "")) ≠ lowerStr wanted
  · rw [if_pos hmt] at h
    exact absurd h (by simp)
  · rw [if_neg hmt] at h
    push_neg at hmt
    rcases hc : coerceTmdbId r with _ | tid
    · rw [hc] at h
      exact absurd h (by simp)
    · rw [hc] at h
      have h2 := Option.some.inj h
      rw [← h2]
      exact hmt

/-- C8: with the broker URL configured, a query whose trimmed length is
below 2 returns `{count 0, items []}` without reaching the upstream
stage; a longer query reaches it; and a result whose media type does
not match the request under case-insensitive comparison is dropped. -/
theorem C8_search (query wanted : String) (results : List JResult) :
    ((trimStr query).length < 2 →
        jellyseerr_search_step true query = SearchStep.empty
          ∧ jellyseerr_search true query wanted results = Except.ok ⟨0, []⟩)
    ∧ (2 ≤ (trimStr query).length →
        jellyseerr_search_step true query = SearchStep.upstream (trimStr query)
          ∧ jellyseerr_search true query wanted results
              = Except.ok (jellyseerrProcess wanted results))
    ∧ (∀ r ∈ results, lowerStr (trimStr (r.mediaType.getD "")) ≠ lowerStr wanted →
        jsItem wanted r = none)
    ∧ (∀ resp, jellyseerr_search true query wanted results = Except.ok resp →
        ∀ it ∈ resp.items, it.mediaType = lowerStr wanted) := by
  refine ⟨?_, ?_, ?_, ?_⟩
  · intro h
    have h1 : jellyseerr_search_step true query = SearchStep.empty := by
      unfold jellyseerr_search_step
      rw [if_neg (by simp), if_pos h]
    exact ⟨h1, by unfold jellyseerr_search; rw [h1]⟩
  · intro h
    have h1 : jellyseerr_search_step true query = SearchStep.upstream (trimStr query) := by
      unfold jellyseerr_search_step
      rw [if_neg (by simp), if_neg (by omega)]
    exact ⟨h1, by unfold jellyseerr_search; rw [h1]⟩
  · intro r _ hne
    simp only [jsItem]
    rw [if_pos hne]
  · intro resp hresp it hit
    unfold jellyseerr_search at hresp
    rcases hstep : jellyseerr_search_step true query with _ | _ | q2 <;>
      simp only [hstep] at hresp
    · exact Except.noConfusion hresp
    · obtain rfl := Except.ok.inj hresp
      simp at hit
    · obtain rfl := Except.ok.inj hresp
      have hi : (jellyseerrProcess wanted results).items
          = (results.filterMap (jsItem wanted)).take 50 := rfl
      rw [hi] at hit
      obtain ⟨r, _, hr⟩ := List.mem_filterMap.mp (List.take_subset _ _ hit)
      exact jsItem_type wanted r it hr

/-- Witness for C8: the one-character query `"a"` short-circuits to an
empty result without consuming the upstream results. -/
theorem C8_witness :
    jellyseerr_search_step true "a" = SearchStep.empty
      ∧ jellyseerr_search true "a" "tv"
          [⟨some "movie", some (JNum.int 5), none, some "X", none, none,
            some "2020-01-01", none⟩]
        = Except.ok ⟨0, []⟩ :=
  (C8_search "a" "tv"
      [⟨some "movie", some (JNum.int 5), none, some "X", none, none,
        some "2020-01-01", none⟩]).1 (by decide)

/-- C10: the search response truncates `items` to the first 50 kept
results while `count` is the total number kept, so `count` strictly
exceeds `items.length` exactly when more than 50 results are kept. -/
theorem C10_count_truncation (wanted : String) (results : List JResult) :
    (jellyseerrProcess wanted results).count = (results.filterMap (jsItem wanted)).length
    ∧ (jellyseerrProcess wanted results).items = (results.filterMap (jsItem wanted)).take 50
    ∧ (50 < (results.filterMap (jsItem wanted)).length →
        (jellyseerrProcess wanted results).items.length
          < (jellyseerrProcess wanted results).count)
    ∧ ((results.filterMap (jsItem wanted)).length ≤ 50 →
        (jellyseerrProcess wanted results).count
          = (jellyseerrProcess wanted results).items.length) := by
  refine ⟨rfl, rfl, ?_, ?_⟩
  · intro h
    have hi : (jellyseerrProcess wanted results).items
        = (results.filterMap (jsItem wanted)).take 50 := rfl
    have hc : (jellyseerrProcess wanted results).count
        = (results.filterMap (jsItem wanted)).length := rfl
    rw [hi, hc, List.length_take]
    omega
  · intro h
    have hi : (jellyseerrProcess wanted results).items
        = (results.filterMap (jsItem wanted)).take 50 := rfl
    have hc : (jellyseerrProcess wanted results).count
        = (results.filterMap (jsItem wanted)).length := rfl
    rw [hi, hc, List.length_take]
    omega

/-- Witness for C10: 51 type-matching results yield `count = 51` but
only 50 items. -/
theorem C10_witness :
    (jellyseerrProcess "tv"
        (List.replicate 51
          ⟨some "tv", some (JNum.int 1), none, some "T", none, none, none, none⟩)).items.length
      < (jellyseerrProcess "tv"
          (List.replicate 51
            ⟨some "tv", some (JNum.int 1), none, some "T", none, none, none, none⟩)).count :=
  (C10_count_truncation "tv"
      (List.replicate 51
        ⟨some "tv", some (JNum.int 1), none, some "T", none, none, none, none⟩)).2.2.1
    (by decide)

/-- C9 (counterexample): the sort key is the string concatenation
`timeleft ++ seriesTitle`, which is not the (time-remaining, title) pair
order: with time-remaining `"1"` (title `"Z"`) and `"10"` (title `"A"`),
the record with the lexicographically larger time-remaining `"10"` is
emitted first because `"10A" < "1Z"`. -/
theorem C9_counterexample :
    ¬ List.Pairwise importClaimLE
        (sonarr_importing 50
          [⟨some "importing", none, none, none, some "Z", none, none, none, none,
            some "1", none, none⟩,
           ⟨some "importing", none, none, none, some "A", none, none, none, none,
            some "10", none, none⟩]).items := by
  decide

/-- C9 (amended): `sonarr_importing` keeps exactly the queue records
whose combined status/state text contains `"import"`, `"process"` or
`"move"` case-insensitively, and sorts ascending by the concatenated
string `timeleft ++ seriesTitle`; for records with equal time-remaining
text this coincides with ordering by series title, but in general it is
not the (time-remaining, title) pair order. -/
theorem C9_amended (limit : Int) (records : List QueueRec) :
    (∀ it, it ∈ importAll records ↔
        ∃ r ∈ records, importMatch r = true ∧ importItemOf r = it)
    ∧ (∀ r : QueueRec, importMatch r = true ↔
        (hasSubstr "import" (importTextOf r) = true
          ∨ hasSubstr "process" (importTextOf r) = true
          ∨ hasSubstr "move" (importTextOf r) = true))
    ∧ List.Pairwise importRel (sonarr_importing limit records).items
    ∧ (∀ a b : ImportItem, a.timeleft.getD "" = b.timeleft.getD "" →
        (importRel a b ↔
          charsLe (a.seriesTitle.getD "").data (b.seriesTitle.getD "").data = true)) := by
  refine ⟨?_, ?_, ?_, ?_⟩
  · intro it
    unfold importAll
    rw [List.mem_insertionSort, List.mem_filterMap]
    constructor
    · rintro ⟨r, hr, hf⟩
      by_cases hm : importMatch r
      · rw [if_pos hm] at hf
        exact ⟨r, hr, hm, Option.some.inj hf⟩
      · rw [if_neg hm] at hf
        exact absurd hf (by simp)
    · rintro ⟨r, hr, hm, he⟩
      exact ⟨r, hr, by rw [if_pos hm, he]⟩
  · intro r
    unfold importMatch
    simp [Bool.or_eq_true, or_assoc]
  · haveI : IsTotal ImportItem importRel := ⟨fun a b => charsLe_total _ _⟩
    haveI : IsTrans ImportItem importRel := ⟨fun a b c hab hbc => charsLe_trans _ _ _ hab hbc⟩
    have hs : List.Pairwise importRel (importAll records) :=
      List.sorted_insertionSort importRel _
    have hi : (sonarr_importing limit records).items
        = (importAll records).take (max 0 (min limit 50)).toNat := rfl
    rw [hi]
    exact List.Pairwise.sublist (List.take_sublist _ _) hs
  · intro a b hab
    unfold importRel importKey
    rw [String.data_append, String.data_append, hab, charsLe_append_left]

/-- Witness for the amended C9: with equal time-remaining text the
implementation order coincides with ordering by series title. -/
theorem C9_witness :
    importRel
        ⟨some "S1", none, none, none, none, none, none, some "00:05", none⟩
        ⟨some "S2", none, none, none, none, none, none, some "00:05", none⟩
      ↔ charsLe "S1".data "S2".data = true :=
  (C9_amended 50 []).2.2.2
    ⟨some "S1", none, none, none, none, none, none, some "00:05", none⟩
    ⟨some "S2", none, none, none, none, none, none, some "00:05", none⟩ rfl

end MediaDash
